import Mathlib

/-!
Verification development for the webhook ingestion and extraction pipeline
of the PrincetonAIPhoneAgent repository (`src/lib/elevenlabs/webhook.ts`,
latest revision, plus the postcode helper).

The TypeScript code is shallowly embedded: JavaScript runtime values are
modelled by the inductive `JSValue` (numbers as integers; the pipeline only
stringifies or truth-tests numbers, so fractional values are irrelevant to the
properties proved here), JS strings by `String`, and the JS string operations
used by the code (`toLowerCase`, `toUpperCase`, `trim`, `split`, `includes`,
`replace`, `parseInt`, hex `Buffer` decoding) by the `js*`/`hex*` functions
below, faithful to their ECMAScript/Node semantics on the relevant inputs
(ASCII case mapping).  The HMAC-SHA256 primitive from `node:crypto` is an
opaque external dependency and is therefore a parameter (a byte-list-valued
function) of the signature verifier.
-/

/-- Model of a JavaScript runtime value as delivered by `JSON.parse` /
the upstream analysis engine. -/
inductive JSValue where
  | null
  | undefined
  | bool (b : Bool)
  | num (n : Int)
  | str (s : String)
  | arr (elems : List JSValue)
  | obj (fields : List (String × JSValue))

/-- Property lookup on an object's field list; `undefined` when absent
(JS semantics for a missing property). -/
def lookupField : List (String × JSValue) → String → JSValue
  | [], _ => JSValue.undefined
  | (k, v) :: rest, key => if k = key then v else lookupField rest key

/-- `v === undefined`. -/
def isUndef : JSValue → Bool
  | JSValue.undefined => true
  | _ => false

/-- `v === null || v === undefined` (the values skipped by `??` and `?.`). -/
def nullish : JSValue → Bool
  | JSValue.null => true
  | JSValue.undefined => true
  | _ => false

/-- JavaScript truthiness. -/
def truthy : JSValue → Bool
  | JSValue.null => false
  | JSValue.undefined => false
  | JSValue.bool b => b
  | JSValue.num n => decide (n ≠ 0)
  | JSValue.str s => decide (s ≠ "")
  | JSValue.arr _ => true
  | JSValue.obj _ => true

/-- Property access `v.k` on a non-nullish base: objects look the key up,
primitives and arrays yield `undefined` (the code never reads the object
properties JS arrays inherit, and the model gives arrays none). -/
def propOrUndef (v : JSValue) (k : String) : JSValue :=
  match v with
  | JSValue.obj fs => lookupField fs k
  | _ => JSValue.undefined

/-- Optional chaining `v?.k`. -/
def optChain (v : JSValue) (k : String) : JSValue :=
  if nullish v then JSValue.undefined else propOrUndef v k

/-- The wrapper-unwrapping expression `obj.value ?? obj.result ?? obj.data`
used by the coercion helpers on an object's field list. -/
def jsGet3 (fs : List (String × JSValue)) : JSValue :=
  let a := lookupField fs "value"
  if nullish a then
    let b := lookupField fs "result"
    if nullish b then lookupField fs "data" else b
  else a

theorem sizeOf_lookupField (fs : List (String × JSValue)) (k : String) :
    sizeOf (lookupField fs k) ≤ sizeOf fs := by
  induction fs with
  | nil => simp [lookupField]
  | cons p rest ih =>
    obtain ⟨k', v⟩ := p
    simp only [lookupField]
    split
    · simp; omega
    · simp; omega

theorem sizeOf_jsGet3 (fs : List (String × JSValue)) :
    sizeOf (jsGet3 fs) < 1 + sizeOf fs := by
  simp only [jsGet3]
  have h1 := sizeOf_lookupField fs "value"
  have h2 := sizeOf_lookupField fs "result"
  have h3 := sizeOf_lookupField fs "data"
  split
  · split
    · omega
    · omega
  · omega

/-- JS `\s` / `trim` whitespace set (ECMAScript WhiteSpace + LineTerminator). -/
def isJsWs (c : Char) : Bool :=
  decide (c.toNat ∈ ([9, 10, 11, 12, 13, 32, 160, 5760,
      8232, 8233, 8239, 8287, 12288, 65279] : List Nat)) ||
    decide (8192 ≤ c.toNat ∧ c.toNat ≤ 8202)

/-- `String.prototype.toLowerCase` (ASCII model). -/
def lowerL (l : List Char) : List Char := l.map Char.toLower

/-- `String.prototype.toUpperCase` (ASCII model). -/
def upperL (l : List Char) : List Char := l.map Char.toUpper

/-- `.replace(/\s/g, '')`. -/
def stripWsL (l : List Char) : List Char := l.filter (fun c => !isJsWs c)

/-- `String.prototype.trim`. -/
def trimL (l : List Char) : List Char :=
  ((l.dropWhile isJsWs).reverse.dropWhile isJsWs).reverse

def jsLowerStr (s : String) : String := String.mk (lowerL s.data)

def jsUpperStr (s : String) : String := String.mk (upperL s.data)

def jsTrimStr (s : String) : String := String.mk (trimL s.data)

/-- All suffixes of a list (including the empty suffix). -/
def tailsL : List Char → List (List Char)
  | [] => [[]]
  | c :: cs => (c :: cs) :: tailsL cs

/-- `String.prototype.includes` on char lists. -/
def containsSub (hay needle : List Char) : Bool :=
  (tailsL hay).any (fun t => needle.isPrefixOf t)

/-- `hay.includes(needle)` for strings. -/
def jsIncludes (hay needle : String) : Bool := containsSub hay.data needle.data

/-- `String.prototype.split` with a single-character separator:
`"".split(sep) = [""]`, separators at the ends produce empty fields. -/
def splitCharAux (sep : Char) : List Char → List Char → List (List Char)
  | [], acc => [acc.reverse]
  | c :: cs, acc =>
    if c = sep then acc.reverse :: splitCharAux sep cs []
    else splitCharAux sep cs (c :: acc)

def jsSplitChar (sep : Char) (s : String) : List String :=
  (splitCharAux sep s.data []).map String.mk

/-- `String.prototype.startsWith`. -/
def jsStartsWith (s pre : String) : Bool := pre.data.isPrefixOf s.data

/-- `String.prototype.substring(n)` (drop the first `n` characters). -/
def jsDropChars (n : Nat) (s : String) : String := String.mk (s.data.drop n)

/--
`parseStringValue` from webhook.ts: `null`/`undefined` (and the literal
strings `"null"`/`""` after trimming) become `null`; wrapper objects are
unwrapped through `value`/`result`/`data`; strings are trimmed; any other
primitive is stringified.  Arrays take the `typeof value === 'object'`
branch but have none of the wrapper properties, so they yield `null`.
-/
def parseStringValue : JSValue → Option String
  | JSValue.null => none
  | JSValue.undefined => none
  | JSValue.obj fs =>
    let actual := jsGet3 fs
    if isUndef actual then none
    else parseStringValue actual
  | JSValue.arr _ => none
  | JSValue.str s =>
    let trimmed := jsTrimStr s
    if jsLowerStr trimmed = "null" ∨ trimmed = "" then none else some trimmed
  | JSValue.bool b => some (if b then "true" else "false")
  | JSValue.num n => some (toString n)
termination_by v => sizeOf v
decreasing_by
  simp only [JSValue.obj.sizeOf_spec]
  have := sizeOf_jsGet3 fs
  omega

/--
`parseBooleanValue` from webhook.ts: booleans pass through, wrapper objects
recurse into `value ?? result ?? data` (arrays recurse into `undefined`),
strings match case-insensitively against `true`/`yes`/`1` with `"null"` and
`""` as `false`, `null`/`undefined` are `false`, numbers use JS truthiness.
-/
def parseBooleanValue : JSValue → Bool
  | JSValue.null => false
  | JSValue.undefined => false
  | JSValue.bool b => b
  | JSValue.obj fs => parseBooleanValue (jsGet3 fs)
  | JSValue.arr xs => parseBooleanValue JSValue.undefined
  | JSValue.str s =>
    let lower := jsTrimStr (jsLowerStr s)
    if lower = "null" ∨ lower = "" then false
    else decide (lower = "true" ∨ lower = "yes" ∨ lower = "1")
  | JSValue.num n => decide (n ≠ 0)
termination_by v => sizeOf v
decreasing_by
  all_goals simp only [JSValue.obj.sizeOf_spec, JSValue.arr.sizeOf_spec,
    JSValue.undefined.sizeOf_spec]
  · have := sizeOf_jsGet3 fs
    omega
  · have : 0 < sizeOf xs := by cases xs <;> simp
    omega

/-- `parseArrayValue` from webhook.ts: only native arrays pass through;
`null`/`undefined` and every string (including the literal `"null"` and the
empty string, which the code special-cases) fall through to `null`. -/
def parseArrayValue : JSValue → Option (List JSValue)
  | JSValue.null => none
  | JSValue.undefined => none
  | JSValue.str s =>
    let trimmed := jsLowerStr (jsTrimStr s)
    if trimmed = "null" ∨ trimmed = "" then none else none
  | JSValue.arr xs => some xs
  | _ => none

/-- `v === null`. -/
def isNull : JSValue → Bool
  | JSValue.null => true
  | _ => false

/-- JS truthiness of a `string | null` variable. -/
def strTruthy : Option String → Bool
  | none => false
  | some s => decide (s ≠ "")

/-- A transcript entry (`{role, message, time_in_call_secs}`); the role is a
string (`'agent'` or `'user'` in well-typed payloads). -/
structure TranscriptEntry where
  role : String
  message : String
  time_in_call_secs : Int
  deriving Repr, DecidableEq

/-- The fixed assertive-phrase list of `detectEmergencyFromTranscript`
(latest webhook.ts revision): only phrases where the patient asserts an
emergency, deliberately excluding raw symptom names. -/
def emergencyPhrases : List String :=
  ["this is an emergency",
   "it is an emergency",
   "is an emergency",
   "i have an emergency",
   "having an emergency",
   "yes emergency",
   "emergency help",
   "need ambulance",
   "call 999",
   "call an ambulance",
   "need an ambulance",
   "i am dying",
   "i\x27m dying",
   "im dying",
   "going to die",
   "about to die",
   "having a heart attack",
   "having a stroke"]

/-- `detectEmergencyFromTranscript`: scans lowercased caller (`role ===
'user'`) messages for any emergency phrase by substring containment. -/
def detectEmergencyFromTranscript (transcript : Option (List TranscriptEntry)) : Bool :=
  match transcript with
  | none => false
  | some entries =>
    if entries.isEmpty then false
    else
      let patientMessages :=
        (entries.filter (fun e => e.role == "user")).map (fun e => jsLowerStr e.message)
      patientMessages.any (fun m => emergencyPhrases.any (fun p => jsIncludes m p))

/-- `formatPostcode` (webhook.ts helper): non-strings/empty come back empty,
otherwise strip all whitespace, uppercase, and insert a single space before
the last 3 characters when at least 5 characters remain. -/
def formatPostcode (postcode : String) : String :=
  if postcode = "" then ""
  else
    let cleaned := upperL (stripWsL postcode.data)
    if 5 ≤ cleaned.length then
      String.mk (cleaned.take (cleaned.length - 3) ++ ' ' :: cleaned.drop (cleaned.length - 3))
    else String.mk cleaned

/-- `parsePreferredContact`: text/sms map to text, both/either to both,
everything else (including missing) to phone. -/
def parsePreferredContact (value : JSValue) : String :=
  match parseStringValue value with
  | none => "phone"
  | some s =>
    if s = "" then "phone"
    else
      let normalized := jsLowerStr s
      if normalized = "text" ∨ normalized = "sms" then "text"
      else if normalized = "both" ∨ normalized = "either" then "both"
      else "phone"

structure PatientData where
  first_name : String
  last_name : String
  postcode : String
  phone_number : String
  preferred_contact : String
  emergency_confirmed : Bool
  deriving Repr, DecidableEq

/-- `extractPatientData`: coerces the collected-field bag
(`analysis?.data_collection_results || {}`) into a `PatientData`, overriding
`emergency_confirmed` to `false` when the transcript asserts an emergency. -/
def extractPatientData (analysis : JSValue) (transcript : Option (List TranscriptEntry)) :
    PatientData :=
  let d0 := optChain analysis "data_collection_results"
  let data := if truthy d0 then d0 else JSValue.obj []
  let declared := parseBooleanValue (propOrUndef data "emergency_confirmed")
  let emergencyConfirmed :=
    if transcript.isSome && detectEmergencyFromTranscript transcript then false else declared
  { first_name := (parseStringValue (propOrUndef data "patient_first_name")).getD ""
    last_name := (parseStringValue (propOrUndef data "patient_last_name")).getD ""
    postcode := formatPostcode ((parseStringValue (propOrUndef data "patient_postcode")).getD "")
    phone_number := (parseStringValue (propOrUndef data "patient_phone")).getD ""
    preferred_contact := parsePreferredContact (propOrUndef data "preferred_contact")
    emergency_confirmed := emergencyConfirmed }

/-- The closed set of 8 known request types. -/
def validTypes : List String :=
  ["health_problem", "repeat_prescription", "fit_note",
   "routine_care", "test_results", "referral_followup",
   "doctors_letter", "other_admin"]

/-- Token normalization in `parseRequestTypes`:
`t.trim().replace(/[\s-]/g, '_')`. -/
def normalizeToken (t : String) : String :=
  String.mk ((trimL t.data).map (fun c => if isJsWs c || c == '-' then '_' else c))

def dedupAux {α : Type} [DecidableEq α] (seen : List α) : List α → List α
  | [] => []
  | x :: xs => if x ∈ seen then dedupAux seen xs else x :: dedupAux (x :: seen) xs

/-- `[...new Set(l)]`: deduplication keeping the first occurrence of each
element, preserving order. -/
def dedupFirst {α : Type} [DecidableEq α] (l : List α) : List α := dedupAux [] l

/-- `parseRequestTypes`: lowercase, split on commas, normalize tokens, keep
only the 8 known types, dedupe preserving first-seen order. -/
def parseRequestTypes (value : Option String) : List String :=
  match value with
  | none => []
  | some v =>
    if v = "" then []
    else
      let types := ((jsSplitChar ',' (jsLowerStr v)).map normalizeToken).filter
        (fun t => validTypes.contains t)
      dedupFirst types

structure Medication where
  name : String
  strength : String
  deriving Repr, DecidableEq

/-- Unit alternatives of the strength regex
`(?:mg|MG|ml|ML|mcg|MCG|g|G|IU|iu|%|units?)` under the `i` flag, in the order
a backtracking engine tries them (`units?` greedily prefers `units`). -/
def medUnits : List (List Char) :=
  ["mg", "ml", "mcg", "g", "iu", "%", "units", "unit"].map String.data

/-- Case-insensitive prefix test (`pat` given lowercase). -/
def ciStartsWith (s pat : List Char) : Bool := lowerL (s.take pat.length) == pat

/--
Tail matcher of the strength regex
`^(.+?)\s+(\d+(?:\.\d+)?\s*(?:mg|...|units?)?)\s*$` (with `i`): given the text
after a candidate name, requires at least one whitespace, then digits, an
optional fraction, optional whitespace, an optional unit, and trailing
whitespace only; returns the text captured by group 2.  The regex's
backtracking is deterministic here because every `\s+`/`\d+` run is followed
by a token of a different character class.
-/
def medTail (rest : List Char) : Option (List Char) :=
  let ws1 := rest.takeWhile isJsWs
  if ws1.isEmpty then none
  else
    let after1 := rest.drop ws1.length
    let digits := after1.takeWhile Char.isDigit
    if digits.isEmpty then none
    else
      let after2 := after1.drop digits.length
      let fracDigits :=
        if after2.head? = some '.' then (after2.drop 1).takeWhile Char.isDigit else []
      let frac := if fracDigits.isEmpty then [] else '.' :: fracDigits
      let after3 := after2.drop frac.length
      let ws2 := after3.takeWhile isJsWs
      let after4 := after3.drop ws2.length
      match medUnits.find? (fun u => ciStartsWith after4 u && (after4.drop u.length).all isJsWs) with
      | some u => some (digits ++ frac ++ ws2 ++ after4.take u.length)
      | none => if after4.isEmpty then some (digits ++ frac ++ ws2) else none

/-- Full match of the strength regex against one item: the lazy `(.+?)` takes
the shortest nonempty name whose tail matches; returns (group 1, group 2). -/
def medSplit (item : List Char) : Option (List Char × List Char) :=
  (List.range item.length).findSome? (fun i =>
    if i = 0 then none
    else match medTail (item.drop i) with
      | some st => some (item.take i, st)
      | none => none)

/-- `parseMedicationsString`: coerce to a string, split on commas, trim and
drop empty items, and split each item into name and trimmed uppercased
strength via the regex; unmatched items become the whole name. -/
def parseMedicationsString (value : JSValue) : List Medication :=
  match parseStringValue value with
  | none => []
  | some s =>
    let items := ((jsSplitChar ',' s).map jsTrimStr).filter (fun x => !x.isEmpty)
    items.map (fun item =>
      match medSplit item.data with
      | some (n, st) => ⟨String.mk (trimL n), jsUpperStr (String.mk (trimL st))⟩
      | none => ⟨item, ""⟩)

/-- `isEmergencyConfirmationResponse`: generic negative-confirmation phrases
that get misfiled into `fit_note_illness`. -/
def isEmergencyConfirmationResponse (value : String) : Bool :=
  let normalized := jsTrimStr (jsLowerStr value)
  ["no", "i\x27m good", "im good", "fine", "i\x27m fine", "im fine", "nope",
   "not an emergency"].contains normalized

/-- `detectRequestTypesFromData`: conservative fallback detection for the
three common request types only, from which fields were actually populated.
-/
def detectRequestTypesFromData (collected : JSValue) : List String :=
  if !truthy collected then []
  else
    let healthDesc := parseStringValue (propOrUndef collected "health_problem_description")
    let healthConcerns := parseStringValue (propOrUndef collected "health_problem_concerns")
    let d1 := if strTruthy healthDesc || strTruthy healthConcerns then ["health_problem"] else []
    let meds := parseStringValue (propOrUndef collected "medications_requested")
    let d2 := if strTruthy meds then d1 ++ ["repeat_prescription"] else d1
    let fitIllness := parseStringValue (propOrUndef collected "fit_note_illness")
    match fitIllness with
    | none => d2
    | some fi =>
      if fi ≠ "" && !isEmergencyConfirmationResponse fi then
        let isDifferentFromHealthProblem :=
          match healthDesc with
          | none => true
          | some hd =>
            if hd = "" then true
            else decide (jsTrimStr (jsLowerStr fi) ≠ jsTrimStr (jsLowerStr hd))
        let hasFitNoteDates :=
          strTruthy (parseStringValue (propOrUndef collected "fit_note_dates_and_details"))
        -- `collected.fit_note_previous !== undefined && ... !== null`
        let hasFitNotePrevious := !nullish (propOrUndef collected "fit_note_previous")
        if isDifferentFromHealthProblem || hasFitNoteDates || hasFitNotePrevious then
          d2 ++ ["fit_note"]
        else d2
      else d2

/-- The tagged `RequestData` union, one variant per request type. -/
inductive RequestData where
  | healthProblem (description duration progression treatments_tried concerns
      help_requested best_contact_times : String)
  | repeatPrescription (medications : List Medication) (additional_notes : String)
  | fitNote (had_previous_note : Bool)
      (illness_description start_date end_date employer_accommodations : String)
  | routineCare (care_type additional_details : String)
  | testResults (test_type test_date test_location reason_for_test : String)
  | referralFollowup (referral_for referral_date nhs_or_private help_needed : String)
  | doctorsLetter (letter_purpose deadline : String)
  | otherAdmin (description : String)
  deriving Repr, DecidableEq

/-- The discriminating `type` field of each `RequestData` variant. -/
def RequestData.typeTag : RequestData → String
  | healthProblem .. => "health_problem"
  | repeatPrescription .. => "repeat_prescription"
  | fitNote .. => "fit_note"
  | routineCare .. => "routine_care"
  | testResults .. => "test_results"
  | referralFollowup .. => "referral_followup"
  | doctorsLetter .. => "doctors_letter"
  | otherAdmin .. => "other_admin"

/-- `extractSingleRequestData`: the exhaustive switch building one tagged
record per recognized type; the `default` branch returns `null`. -/
def extractSingleRequestData (requestType : String) (collected : JSValue) :
    Option RequestData :=
  match requestType with
  | "health_problem" => some (RequestData.healthProblem
      ((parseStringValue (optChain collected "health_problem_description")).getD "")
      ((parseStringValue (optChain collected "health_problem_duration")).getD "")
      ((parseStringValue (optChain collected "health_problem_progression")).getD "")
      ((parseStringValue (optChain collected "health_problem_tried")).getD "")
      ((parseStringValue (optChain collected "health_problem_concerns")).getD "")
      ((parseStringValue (optChain collected "health_problem_help_wanted")).getD "")
      ((parseStringValue (optChain collected "best_contact_times")).getD ""))
  | "repeat_prescription" => some (RequestData.repeatPrescription
      (parseMedicationsString (optChain collected "medications_requested"))
      ((parseStringValue (optChain collected "prescription_notes")).getD ""))
  | "fit_note" => some (RequestData.fitNote
      (parseBooleanValue (optChain collected "fit_note_previous") || false)
      ((parseStringValue (optChain collected "fit_note_illness")).getD "")
      ""
      ""
      ((parseStringValue (optChain collected "fit_note_dates_and_details")).getD ""))
  | "routine_care" => some (RequestData.routineCare
      ""
      ((parseStringValue (optChain collected "routine_care_details")).getD ""))
  | "test_results" => some (RequestData.testResults
      ((parseStringValue (optChain collected "test_details")).getD "")
      "" "" "")
  | "referral_followup" => some (RequestData.referralFollowup
      ((parseStringValue (optChain collected "referral_details")).getD "")
      "" "nhs" "")
  | "doctors_letter" => some (RequestData.doctorsLetter
      ((parseStringValue (optChain collected "letter_details")).getD "")
      "")
  | "other_admin" => some (RequestData.otherAdmin
      ((parseStringValue (optChain collected "other_admin_description")).getD ""))
  | _ => none

/-- Result shape of `extractRequestData`: the recognized types and the
type-keyed mapping (`MultiRequestData`), modelled as an insertion-ordered
association list, or `null`. -/
structure RequestsResult where
  types : List String
  data : Option (List (String × RequestData))
  deriving Repr, DecidableEq

/-- `extractRequestData`: parse declared types, union in fallback-detected
types, then build the per-type mapping. -/
def extractRequestData (analysis : JSValue) : RequestsResult :=
  let collected := optChain analysis "data_collection_results"
  let requestTypeValue := parseStringValue (optChain collected "request_type")
  let types0 := parseRequestTypes requestTypeValue
  let detected := detectRequestTypesFromData collected
  let types := detected.foldl (fun acc d => if d ∈ acc then acc else acc ++ [d]) types0
  if types.isEmpty then ⟨[], none⟩
  else
    let data := types.foldl (fun acc rt =>
      match extractSingleRequestData rt collected with
      | some requestData => acc ++ [(rt, requestData)]
      | none => acc) []
    if data.isEmpty then ⟨types, none⟩ else ⟨types, some data⟩

mutual

/-- JS `String(value)` / template-literal stringification. -/
def jsToString : JSValue → String
  | JSValue.null => "null"
  | JSValue.undefined => "undefined"
  | JSValue.bool b => if b then "true" else "false"
  | JSValue.num n => toString n
  | JSValue.str s => s
  | JSValue.obj _ => "[object Object]"
  | JSValue.arr xs => jsArrToString xs

/-- `Array.prototype.toString`: elements joined by commas, with `null` and
`undefined` elements rendered as the empty string. -/
def jsArrToString : List JSValue → String
  | [] => ""
  | x :: xs =>
    let head := match x with
      | JSValue.null => ""
      | JSValue.undefined => ""
      | v => jsToString v
    match xs with
    | [] => head
    | _ => head ++ "," ++ jsArrToString xs

end

/-- Result shape of `parseWebhookPayload`. -/
structure ParseResult where
  success : Bool
  payload : Option JSValue
  error : Option String

/--
Validation body of `parseWebhookPayload` applied to the value produced by
`JSON.parse`: requires a truthy `type` equal to `'post_call_transcription'`
and truthy `data?.conversation_id` and `data?.agent_id`.  A nullish parse
result makes `parsed.type` throw a TypeError that the surrounding catch turns
into a failure (the runtime-specific exception text is modelled abstractly).
-/
def parseWebhookPayloadJ (parsed : JSValue) : ParseResult :=
  if nullish parsed then ⟨false, none, some "Failed to parse payload: TypeError"⟩
  else
    let ty := propOrUndef parsed "type"
    if !truthy ty then ⟨false, none, some "Missing type field"⟩
    else
      match ty with
      | JSValue.str "post_call_transcription" =>
        let dataV := propOrUndef parsed "data"
        if !truthy (optChain dataV "conversation_id") then
          ⟨false, none, some "Missing conversation_id"⟩
        else if !truthy (optChain dataV "agent_id") then
          ⟨false, none, some "Missing agent_id"⟩
        else ⟨true, some parsed, none⟩
      | _ => ⟨false, none, some ("Unsupported webhook type: " ++ jsToString ty)⟩

/-- `parseWebhookPayload`: `JSON.parse` (modelled as a parameter returning
`none` exactly when the body is not valid JSON) followed by validation. -/
def parseWebhookPayload (jsonParse : String → Option JSValue) (body : String) : ParseResult :=
  match jsonParse body with
  | none => ⟨false, none, some "Failed to parse payload: invalid JSON"⟩
  | some parsed => parseWebhookPayloadJ parsed

/-- JS `parseInt(s, 10)`: skip leading whitespace, optional sign, then a
nonempty run of decimal digits; `none` models `NaN`. -/
def digitsVal (l : List Char) : Option Nat :=
  let ds := l.takeWhile Char.isDigit
  if ds.isEmpty then none
  else some (ds.foldl (fun acc c => acc * 10 + (c.toNat - 48)) 0)

def jsParseInt (s : String) : Option Int :=
  match s.data.dropWhile isJsWs with
  | '-' :: rest => (digitsVal rest).map (fun n => -(n : Int))
  | '+' :: rest => (digitsVal rest).map (fun n => (n : Int))
  | rest => (digitsVal rest).map (fun n => (n : Int))

def hexDigitVal : Char → Option Nat := fun c =>
  if '0' ≤ c ∧ c ≤ '9' then some (c.toNat - 48)
  else if 'a' ≤ c ∧ c ≤ 'f' then some (c.toNat - 87)
  else if 'A' ≤ c ∧ c ≤ 'F' then some (c.toNat - 55)
  else none

/-- Node `Buffer.from(s, 'hex')`: decodes hex-digit pairs, stopping at the
first invalid pair and dropping an odd trailing digit. -/
def hexDecodeL : List Char → List Nat
  | c1 :: c2 :: rest =>
    (match hexDigitVal c1, hexDigitVal c2 with
     | some h, some lo => (16 * h + lo) :: hexDecodeL rest
     | _, _ => [])
  | _ => []

def hexDecode (s : String) : List Nat := hexDecodeL s.data

def hexDigitChar (n : Nat) : Char :=
  if n < 10 then Char.ofNat (48 + n) else Char.ofNat (87 + n)

/-- `.digest('hex')`: lowercase hex encoding of the digest bytes. -/
def hexEncode (bytes : List Nat) : String :=
  String.mk (bytes.foldr (fun b acc => hexDigitChar (b / 16 % 16) :: hexDigitChar (b % 16) :: acc) [])

structure SignatureResult where
  valid : Bool
  error : Option String
  deriving Repr, DecidableEq

/--
`validateWebhookSignature`: header split on commas, first `t=`/`v0=` parts
extracted, freshness checked via `parseInt` (a non-numeric timestamp is NaN
and JS NaN comparisons are false, so it passes the freshness test), then the
provided hash and the hex digest of HMAC-SHA256(secret, `{t}.{body}`) are
hex-decoded and compared (length, then constant-time content).  The HMAC
primitive is a parameter returning the digest bytes.
-/
def validateWebhookSignature (hmacSha256 : String → String → List Nat)
    (nowSeconds : Int) (signature : Option String) (body secret : String) : SignatureResult :=
  match signature with
  | none => ⟨false, some "Missing signature header"⟩
  | some sg =>
    -- `if (!signature)` is also taken for the empty string
    if sg = "" then ⟨false, some "Missing signature header"⟩
    else
      let parts := jsSplitChar ',' sg
      match parts.find? (fun p => jsStartsWith p "t="),
            parts.find? (fun p => jsStartsWith p "v0=") with
      | some timestampPart, some hashPart =>
        let timestamp := jsDropChars 2 timestampPart
        let providedHash := jsDropChars 3 hashPart
        let expired :=
          match jsParseInt timestamp with
          | some ts => decide (1800 < (nowSeconds - ts).natAbs)
          | none => false
        if expired then ⟨false, some "Signature timestamp expired"⟩
        else
          let signaturePayload := timestamp ++ "." ++ body
          let expectedHash := hexEncode (hmacSha256 secret signaturePayload)
          let providedBuffer := hexDecode providedHash
          let expectedBuffer := hexDecode expectedHash
          if providedBuffer.length ≠ expectedBuffer.length then ⟨false, some "Invalid signature"⟩
          else if providedBuffer ≠ expectedBuffer then ⟨false, some "Invalid signature"⟩
          else ⟨true, none⟩
      | _, _ => ⟨false, some "Invalid signature format"⟩

theorem charToNat_ofNat (n : Nat) (h : n.isValidChar) : (Char.ofNat n).toNat = n := by
  simp [Char.ofNat, dif_pos h, Char.ofNatAux, Char.toNat, UInt32.toNat, BitVec.toNat_ofNatLt]

theorem toUpper_toUpper (c : Char) : c.toUpper.toUpper = c.toUpper := by
  unfold Char.toUpper
  simp only []
  by_cases h : c.toNat ≥ 97 ∧ c.toNat ≤ 122
  · rw [if_pos h]
    have hv : (c.toNat - 32).isValidChar := by left; omega
    rw [charToNat_ofNat _ hv, if_neg (by omega)]
  · rw [if_neg h, if_neg h]

theorem isJsWs_toUpper (c : Char) (h : isJsWs c = false) : isJsWs c.toUpper = false := by
  unfold Char.toUpper
  simp only []
  by_cases hc : c.toNat ≥ 97 ∧ c.toNat ≤ 122
  · rw [if_pos hc]
    have hv : (c.toNat - 32).isValidChar := by left; omega
    simp [isJsWs, charToNat_ofNat _ hv]
    omega
  · rw [if_neg hc]; exact h

theorem stripWsL_fix (l : List Char) (h : ∀ a ∈ l, isJsWs a = false) : stripWsL l = l :=
  List.filter_eq_self.mpr (fun a ha => by simp [h a ha])

theorem upperL_fix (l : List Char) (h : ∀ a ∈ l, Char.toUpper a = a) : upperL l = l := by
  unfold upperL
  rw [List.map_congr_left h]
  simp

theorem mem_clean (l : List Char) (a : Char) (ha : a ∈ upperL (stripWsL l)) :
    Char.toUpper a = a ∧ isJsWs a = false := by
  simp only [upperL, stripWsL, List.mem_map, List.mem_filter] at ha
  obtain ⟨b, ⟨_, hbws⟩, rfl⟩ := ha
  exact ⟨toUpper_toUpper b, isJsWs_toUpper b (by simpa using hbws)⟩

theorem clean_fix (l : List Char) (h : ∀ a ∈ l, Char.toUpper a = a ∧ isJsWs a = false) :
    upperL (stripWsL l) = l := by
  rw [stripWsL_fix l (fun a ha => (h a ha).2), upperL_fix l (fun a ha => (h a ha).1)]

theorem clean_append_space (A B : List Char)
    (hA : ∀ a ∈ A, Char.toUpper a = a ∧ isJsWs a = false)
    (hB : ∀ a ∈ B, Char.toUpper a = a ∧ isJsWs a = false) :
    upperL (stripWsL (A ++ ' ' :: B)) = A ++ B := by
  unfold stripWsL upperL
  rw [List.filter_append, List.filter_cons]
  have hsp : (!isJsWs ' ') = false := by decide
  rw [hsp]
  simp only [Bool.false_eq_true, if_false, List.map_append]
  rw [show A.filter (fun c => !isJsWs c) = A from
        List.filter_eq_self.mpr (fun a ha => by simp [(hA a ha).2]),
      show B.filter (fun c => !isJsWs c) = B from
        List.filter_eq_self.mpr (fun a ha => by simp [(hB a ha).2]),
      List.map_congr_left (fun a ha => (hA a ha).1),
      List.map_congr_left (fun a ha => (hB a ha).1)]
  simp

/-- Claim C6: postcode formatting is idempotent — for every input string `x`,
`formatPostcode (formatPostcode x) = formatPostcode x`, where `formatPostcode`
strips all whitespace, uppercases, and re-inserts a single space before the
final 3 characters when the cleaned length is at least 5. -/
theorem C6_formatPostcode_idempotent (x : String) :
    formatPostcode (formatPostcode x) = formatPostcode x := by
  by_cases hx : x = ""
  · subst hx; rfl
  · unfold formatPostcode
    rw [if_neg hx]
    simp only []
    set c := upperL (stripWsL x.data) with hc
    have hmem : ∀ a ∈ c, Char.toUpper a = a ∧ isJsWs a = false := fun a ha => mem_clean x.data a ha
    by_cases hlen : 5 ≤ c.length
    · rw [if_pos hlen]
      set A := c.take (c.length - 3) with hA
      set B := c.drop (c.length - 3) with hB
      have hAne : String.mk (A ++ ' ' :: B) ≠ "" := by
        intro hcon
        have : (A ++ ' ' :: B) = [] := by
          have := congrArg String.data hcon
          simpa using this
        simp at this
      rw [if_neg hAne]
      simp only [String.data]
      have hmemA : ∀ a ∈ A, Char.toUpper a = a ∧ isJsWs a = false :=
        fun a ha => hmem a (List.mem_of_mem_take ha)
      have hmemB : ∀ a ∈ B, Char.toUpper a = a ∧ isJsWs a = false :=
        fun a ha => hmem a (List.mem_of_mem_drop ha)
      rw [clean_append_space A B hmemA hmemB]
      rw [List.take_append_drop]
      rw [if_pos hlen]
    · rw [if_neg hlen]
      by_cases hcnil : c = []
      · rw [hcnil]
        rfl
      · have hne : String.mk c ≠ "" := by
          intro hcon
          exact hcnil (by simpa using congrArg String.data hcon)
        rw [if_neg hne]
        simp only [String.data]
        rw [clean_fix c hmem, if_neg hlen]

/-- Characterization of the emergency detector: it fires exactly when some
caller-authored entry's lowercased message contains one of the assertive
phrases. -/
theorem detectEmergency_iff (entries : List TranscriptEntry) :
    detectEmergencyFromTranscript (some entries) = true ↔
      ∃ e ∈ entries, e.role = "user" ∧ ∃ p ∈ emergencyPhrases,
        jsIncludes (jsLowerStr e.message) p = true := by
  cases entries with
  | nil => simp [detectEmergencyFromTranscript]
  | cons h t =>
    simp only [detectEmergencyFromTranscript, List.isEmpty_cons, Bool.false_eq_true,
      if_false, List.any_eq_true, List.mem_map, List.mem_filter, beq_iff_eq]
    constructor
    · rintro ⟨m, ⟨e, ⟨he, hrole⟩, rfl⟩, p, hp, hinc⟩
      exact ⟨e, he, hrole, p, hp, hinc⟩
    · rintro ⟨e, he, hrole, p, hp, hinc⟩
      exact ⟨jsLowerStr e.message, ⟨e, ⟨he, hrole⟩, rfl⟩, p, hp, hinc⟩

/-- Claim C1: the `emergency_confirmed` override of `extractPatientData` is
one-directionally fail-safe — for every analysis bag and transcript, an
assertive emergency phrase in a caller-authored entry forces the output to
`false` regardless of the declared value, and a declared value that coerces
to `false` keeps the output `false` regardless of the transcript. -/
theorem C1_emergency_confirmed_failsafe (analysis : JSValue) (entries : List TranscriptEntry) :
    ((∃ e ∈ entries, e.role = "user" ∧ ∃ p ∈ emergencyPhrases,
        jsIncludes (jsLowerStr e.message) p = true) →
      (extractPatientData analysis (some entries)).emergency_confirmed = false) ∧
    (parseBooleanValue (propOrUndef
        (if truthy (optChain analysis "data_collection_results")
         then optChain analysis "data_collection_results" else JSValue.obj [])
        "emergency_confirmed") = false →
      ∀ transcript, (extractPatientData analysis transcript).emergency_confirmed = false) := by
  constructor
  · intro hex
    have hdet : detectEmergencyFromTranscript (some entries) = true :=
      (detectEmergency_iff entries).mpr hex
    simp [extractPatientData, hdet]
  · intro hdecl transcript
    simp only [extractPatientData]
    split
    · rfl
    · exact hdecl

/-- Witness for C1: a declared `emergency_confirmed = true` combined with a
caller saying "i am dying" produces `emergency_confirmed = false`. -/
theorem C1_emergency_confirmed_failsafe_witness :
    (extractPatientData
      (JSValue.obj [("data_collection_results",
        JSValue.obj [("emergency_confirmed", JSValue.bool true)])])
      (some [⟨"user", "i am dying", 3⟩])).emergency_confirmed = false :=
  (C1_emergency_confirmed_failsafe _ _).1 (by decide)

/-- Claim C2: the emergency phrase list excludes raw symptom names — a caller
entry "no chest pain, I'm fine" triggers no detection, and phrases appearing
only in agent-authored entries never cause a `true` result (if no caller
entry contains a phrase, the detector returns `false`). -/
theorem C2_emergency_detector_no_symptom_false_positive :
    detectEmergencyFromTranscript
      (some [⟨"user", "no chest pain, I\x27m fine", 10⟩]) = false ∧
    ∀ entries : List TranscriptEntry,
      (∀ e ∈ entries, e.role = "user" →
        ∀ p ∈ emergencyPhrases, jsIncludes (jsLowerStr e.message) p = false) →
      detectEmergencyFromTranscript (some entries) = false := by
  constructor
  · rfl
  · intro entries h
    by_contra hcon
    have htrue : detectEmergencyFromTranscript (some entries) = true := by
      revert hcon
      cases detectEmergencyFromTranscript (some entries) <;> simp
    obtain ⟨e, he, hrole, p, hp, hinc⟩ := (detectEmergency_iff entries).mp htrue
    have hfalse := h e he hrole p hp
    rw [hfalse] at hinc
    exact Bool.false_ne_true hinc

/-- Witness for C2: an assertive phrase spoken only by the agent does not
trigger the detector. -/
theorem C2_emergency_detector_no_symptom_false_positive_witness :
    detectEmergencyFromTranscript (some [⟨"agent", "this is an emergency", 0⟩]) = false :=
  C2_emergency_detector_no_symptom_false_positive.2
    [⟨"agent", "this is an emergency", 0⟩] (by decide)

theorem mem_dedupAux {α : Type} [DecidableEq α] (seen : List α) (l : List α) (x : α) :
    x ∈ dedupAux seen l ↔ x ∈ l ∧ x ∉ seen := by
  induction l generalizing seen with
  | nil => simp [dedupAux]
  | cons a as ih =>
    simp only [dedupAux]
    split <;> rename_i hmem
    · rw [ih, List.mem_cons]
      constructor
      · rintro ⟨h1, h2⟩
        exact ⟨Or.inr h1, h2⟩
      · rintro ⟨h1 | h1, h2⟩
        · exact absurd (h1 ▸ hmem) h2
        · exact ⟨h1, h2⟩
    · simp only [List.mem_cons, ih]
      constructor
      · rintro (rfl | ⟨h1, h2⟩)
        · exact ⟨Or.inl rfl, hmem⟩
        · exact ⟨Or.inr h1, fun hc => h2 (Or.inr hc)⟩
      · rintro ⟨rfl | h1, h2⟩
        · exact Or.inl rfl
        · by_cases hxa : x = a
          · exact Or.inl hxa
          · exact Or.inr ⟨h1, fun hc => hc.elim hxa h2⟩

theorem mem_dedupFirst {α : Type} [DecidableEq α] (l : List α) (x : α) :
    x ∈ dedupFirst l ↔ x ∈ l := by
  unfold dedupFirst
  rw [mem_dedupAux]
  simp

theorem nodup_dedupAux {α : Type} [DecidableEq α] (seen : List α) (l : List α) :
    (dedupAux seen l).Nodup := by
  induction l generalizing seen with
  | nil => simp [dedupAux]
  | cons a as ih =>
    simp only [dedupAux]
    split
    · exact ih seen
    · refine List.nodup_cons.mpr ⟨fun hc => ?_, ih (a :: seen)⟩
      exact ((mem_dedupAux (a :: seen) as a).mp hc).2 (List.mem_cons_self a seen)

theorem parseRequestTypes_nodup (v : Option String) : (parseRequestTypes v).Nodup := by
  cases v with
  | none => simp [parseRequestTypes]
  | some s =>
    simp only [parseRequestTypes]
    split
    · simp
    · exact nodup_dedupAux _ _

theorem parseRequestTypes_subset (v : Option String) :
    ∀ t ∈ parseRequestTypes v, t ∈ validTypes := by
  intro t ht
  cases v with
  | none => simp [parseRequestTypes] at ht
  | some s =>
    by_cases hs : s = ""
    · simp [parseRequestTypes, hs] at ht
    · simp only [parseRequestTypes, if_neg hs] at ht
      rw [mem_dedupFirst] at ht
      simp only [List.mem_filter] at ht
      have h2 := ht.2
      simpa [List.contains] using h2

/-- Claim C7: `parseRequestTypes` splits on commas, normalizes tokens, keeps
only the 8 known request types, and dedupes preserving first-seen order; the
declared string "fit_note,fit_note,health_problem" yields exactly
["fit_note", "health_problem"], and the result never contains a duplicate or
an unrecognized type. -/
theorem C7_parseRequestTypes_dedup_valid :
    parseRequestTypes (some "fit_note,fit_note,health_problem") =
      ["fit_note", "health_problem"] ∧
    ∀ v : Option String, (parseRequestTypes v).Nodup ∧
      ∀ t ∈ parseRequestTypes v, t ∈ validTypes :=
  ⟨by rfl, fun v => ⟨parseRequestTypes_nodup v, parseRequestTypes_subset v⟩⟩

/-- Witness for C7: the token parsed from "fit_note" is one of the 8 known
types. -/
theorem C7_parseRequestTypes_dedup_valid_witness : ("fit_note" : String) ∈ validTypes :=
  (C7_parseRequestTypes_dedup_valid.2 (some "fit_note")).2 "fit_note" (by decide)

/-- The fallback detector only ever emits the three common request types. -/
theorem detectRequestTypes_subset (c : JSValue) :
    ∀ t ∈ detectRequestTypesFromData c,
      t = "health_problem" ∨ t = "repeat_prescription" ∨ t = "fit_note" := by
  intro t ht
  simp only [detectRequestTypesFromData] at ht
  repeat' split at ht
  all_goals simp_all
  all_goals tauto

/-- Membership through the `types.push(detected)` union loop of
`extractRequestData`. -/
theorem mem_foldl_push (l : List String) (x : String) :
    ∀ acc : List String,
      (x ∈ l.foldl (fun acc d => if d ∈ acc then acc else acc ++ [d]) acc ↔
        x ∈ acc ∨ x ∈ l) := by
  induction l with
  | nil => intro acc; simp
  | cons d ds ih =>
    intro acc
    rw [List.foldl_cons, ih]
    by_cases hd : d ∈ acc
    · rw [if_pos hd]
      constructor
      · rintro (h | h)
        · exact Or.inl h
        · exact Or.inr (List.mem_cons_of_mem d h)
      · rintro (h | h)
        · exact Or.inl h
        · rcases List.mem_cons.mp h with rfl | h2
          · exact Or.inl hd
          · exact Or.inr h2
    · rw [if_neg hd]
      simp only [List.mem_append, List.mem_cons, List.not_mem_nil, or_false]
      tauto

/-- The union loop preserves the no-duplicates invariant. -/
theorem nodup_foldl_push (l : List String) :
    ∀ acc : List String, acc.Nodup →
      (l.foldl (fun acc d => if d ∈ acc then acc else acc ++ [d]) acc).Nodup := by
  induction l with
  | nil => intro acc h; simpa using h
  | cons d ds ih =>
    intro acc hacc
    rw [List.foldl_cons]
    by_cases hd : d ∈ acc
    · rw [if_pos hd]; exact ih acc hacc
    · rw [if_neg hd]
      refine ih _ ?_
      rw [List.nodup_append]
      exact ⟨hacc, List.nodup_singleton d, by simpa using hd⟩

/-- On the 8 known request types the per-type switch always yields a record
tagged with its own type. -/
theorem extractSingle_valid (t : String) (ht : t ∈ validTypes) (c : JSValue) :
    ∃ rd, extractSingleRequestData t c = some rd ∧ rd.typeTag = t := by
  fin_cases ht <;> exact ⟨_, rfl, rfl⟩

/-- The mapping-building loop of `extractRequestData`: keys come out in type
order and every value carries its key as tag. -/
theorem dataFold_spec (c : JSValue) :
    ∀ (ts : List String), (∀ t ∈ ts, t ∈ validTypes) →
    ∀ acc : List (String × RequestData),
      ((ts.foldl (fun acc rt =>
          match extractSingleRequestData rt c with
          | some requestData => acc ++ [(rt, requestData)]
          | none => acc) acc).map Prod.fst = acc.map Prod.fst ++ ts) ∧
      (∀ p ∈ ts.foldl (fun acc rt =>
          match extractSingleRequestData rt c with
          | some requestData => acc ++ [(rt, requestData)]
          | none => acc) acc, p ∈ acc ∨ (p.2).typeTag = p.1) := by
  intro ts
  induction ts with
  | nil =>
    intro _ acc
    constructor
    · simp
    · intro p hp
      exact Or.inl hp
  | cons t ts ih =>
    intro hts acc
    obtain ⟨rd, hrd, htag⟩ := extractSingle_valid t (hts t (List.mem_cons_self t ts)) c
    rw [List.foldl_cons]
    simp only [hrd]
    have hts' : ∀ u ∈ ts, u ∈ validTypes := fun u hu => hts u (List.mem_cons_of_mem t hu)
    obtain ⟨ih1, ih2⟩ := ih hts' (acc ++ [(t, rd)])
    constructor
    · rw [ih1]
      simp
    · intro p hp
      rcases ih2 p hp with hin | htagp
      · rcases List.mem_append.mp hin with h | h
        · exact Or.inl h
        · rcases List.mem_cons.mp h with rfl | h2
          · exact Or.inr htag
          · simp at h2
      · exact Or.inr htagp

/-- Claim C8: fallback detection unions only the three common types into the
reconciled set, and a missing declared type with a populated
`health_problem_description` still yields `health_problem`. -/
theorem C8_fallback_detection_three_common_types :
    (∀ c : JSValue, ∀ t ∈ detectRequestTypesFromData c,
      t = "health_problem" ∨ t = "repeat_prescription" ∨ t = "fit_note") ∧
    ∀ analysis : JSValue,
      parseStringValue (optChain (optChain analysis "data_collection_results")
        "request_type") = none →
      ∀ s, parseStringValue (propOrUndef (optChain analysis "data_collection_results")
        "health_problem_description") = some s →
      s ≠ "" →
      "health_problem" ∈ (extractRequestData analysis).types := by
  constructor
  · exact detectRequestTypes_subset
  · intro a h1 s h2 hs
    have htru : truthy (optChain a "data_collection_results") = true := by
      rcases hc : optChain a "data_collection_results" with _ | _ | b | n | s2 | xs | fs
      all_goals first
      | rfl
      | (rw [hc] at h2; simp [propOrUndef, parseStringValue] at h2)
    simp only [extractRequestData]
    set collected := optChain a "data_collection_results" with hcol
    have hdet_mem : "health_problem" ∈ detectRequestTypesFromData collected := by
      simp only [detectRequestTypesFromData, htru, h2]
      simp only [strTruthy]
      repeat' split
      all_goals simp_all
    rw [h1]
    have hmem : "health_problem" ∈
        (detectRequestTypesFromData collected).foldl
          (fun acc d => if d ∈ acc then acc else acc ++ [d]) (parseRequestTypes none) :=
      (mem_foldl_push _ _ _).mpr (Or.inr hdet_mem)
    have hne : ¬(((detectRequestTypesFromData collected).foldl
        (fun acc d => if d ∈ acc then acc else acc ++ [d])
        (parseRequestTypes none)).isEmpty = true) := by
      intro hemp
      rcases hlist : (detectRequestTypesFromData collected).foldl
        (fun acc d => if d ∈ acc then acc else acc ++ [d]) (parseRequestTypes none)
        with _ | ⟨x, xs⟩
      · rw [hlist] at hmem
        simp at hmem
      · rw [hlist] at hemp
        simp at hemp
    rw [if_neg hne]
    split <;> simpa using hmem

/-- Claim C10: `extractRequestData` always returns a duplicate-free types
list drawn from the closed set of 8 known request types, and when the data
mapping is non-null its key list is exactly the types list with every value
tagged by its key. -/
theorem C10_extractRequestData_invariants (analysis : JSValue) :
    (extractRequestData analysis).types.Nodup ∧
    (∀ t ∈ (extractRequestData analysis).types, t ∈ validTypes) ∧
    ∀ l, (extractRequestData analysis).data = some l →
      l.map Prod.fst = (extractRequestData analysis).types ∧
      ∀ p ∈ l, (p.2).typeTag = p.1 := by
  simp only [extractRequestData]
  set collected := optChain analysis "data_collection_results" with hcol
  set types0 := parseRequestTypes (parseStringValue (optChain collected "request_type"))
    with htypes0
  set detected := detectRequestTypesFromData collected with hdet
  set types := detected.foldl (fun acc d => if d ∈ acc then acc else acc ++ [d]) types0
    with htypes
  have hnodup : types.Nodup := nodup_foldl_push detected types0 (parseRequestTypes_nodup _)
  have hsub : ∀ t ∈ types, t ∈ validTypes := by
    intro t ht
    rcases (mem_foldl_push detected t types0).mp ht with h | h
    · exact parseRequestTypes_subset _ t h
    · rcases detectRequestTypes_subset collected t h with rfl | rfl | rfl <;> simp [validTypes]
  by_cases hemp : types.isEmpty
  · rw [if_pos hemp]
    refine ⟨by simp, by simp, ?_⟩
    intro l hl
    simp at hl
  · rw [if_neg hemp]
    set data := types.foldl (fun acc rt =>
      match extractSingleRequestData rt collected with
      | some requestData => acc ++ [(rt, requestData)]
      | none => acc) [] with hdata
    obtain ⟨h1, h2⟩ := dataFold_spec collected types hsub []
    by_cases hde : data.isEmpty
    · rw [if_pos hde]
      refine ⟨hnodup, hsub, ?_⟩
      intro l hl
      simp at hl
    · rw [if_neg hde]
      refine ⟨hnodup, hsub, ?_⟩
      intro l hl
      have hld : data = l := by
        simpa using hl
      subst hld
      constructor
      · rw [← hdata] at h1
        simpa using h1
      · intro p hp
        rw [← hdata] at h2
        rcases h2 p hp with hin | htag
        · simp at hin
        · exact htag

/-- Witness for C8: a bag with no declared type but a populated
`health_problem_description` still yields `health_problem`. -/
theorem C8_fallback_detection_three_common_types_witness :
    "health_problem" ∈ (extractRequestData (JSValue.obj [("data_collection_results",
      JSValue.obj [("health_problem_description", JSValue.str "headache")])])).types := by
  refine C8_fallback_detection_three_common_types.2 _ ?_ "headache" ?_ (by decide)
  · show parseStringValue JSValue.undefined = none
    simp [parseStringValue]
  · show parseStringValue (JSValue.str "headache") = some "headache"
    simp only [parseStringValue]
    decide

/-- Witness for C10: for a declared `fit_note` call the data mapping's key
list is exactly the types list. -/
theorem C10_extractRequestData_invariants_witness :
    ([("fit_note", RequestData.fitNote false "" "" "" "")] :
        List (String × RequestData)).map Prod.fst =
      (extractRequestData (JSValue.obj [("data_collection_results",
        JSValue.obj [("request_type", JSValue.str "fit_note")])])).types :=
  ((C10_extractRequestData_invariants _).2.2 _ (by
    have h1 : parseStringValue (JSValue.str "fit_note") = some "fit_note" := by
      simp only [parseStringValue]
      decide
    have h2 : parseStringValue JSValue.undefined = none := by
      simp [parseStringValue]
    have h3 : parseBooleanValue JSValue.undefined = false := by
      simp [parseBooleanValue]
    have h4 : parseMedicationsString JSValue.undefined = [] := by
      simp [parseMedicationsString, h2]
    simp only [extractRequestData, optChain, nullish, propOrUndef, lookupField]
    simp +decide [h1, h2, h3, h4, parseRequestTypes, detectRequestTypesFromData,
      extractSingleRequestData, truthy, strTruthy, dedupFirst, dedupAux, normalizeToken,
      jsSplitChar, splitCharAux, jsLowerStr, lowerL, jsTrimStr, trimL, validTypes,
      optChain, nullish, propOrUndef, lookupField, isJsWs,
      isEmergencyConfirmationResponse])).1

/-- Claim C5: the coercion and extraction functions are total over the whole
JS value domain (the embedding is a total function on `JSValue`, so every
input shape has a defined result): the per-type extractor never returns
`null` for a known type, and missing sources become empty-string/false/
empty-list defaults, never null — shown by evaluating every extractor on an
entirely absent collected bag, plus the null-handling facts for
`parseStringValue`, `parseBooleanValue` and `parseArrayValue`. -/
theorem C5_extraction_total_defaults :
    (∀ t ∈ validTypes, ∀ c : JSValue, (extractSingleRequestData t c).isSome = true) ∧
    extractPatientData JSValue.undefined none = ⟨"", "", "", "", "phone", false⟩ ∧
    extractSingleRequestData "health_problem" JSValue.undefined =
      some (RequestData.healthProblem "" "" "" "" "" "" "") ∧
    extractSingleRequestData "repeat_prescription" JSValue.undefined =
      some (RequestData.repeatPrescription [] "") ∧
    extractSingleRequestData "fit_note" JSValue.undefined =
      some (RequestData.fitNote false "" "" "" "") ∧
    extractSingleRequestData "routine_care" JSValue.undefined =
      some (RequestData.routineCare "" "") ∧
    extractSingleRequestData "test_results" JSValue.undefined =
      some (RequestData.testResults "" "" "" "") ∧
    extractSingleRequestData "referral_followup" JSValue.undefined =
      some (RequestData.referralFollowup "" "" "nhs" "") ∧
    extractSingleRequestData "doctors_letter" JSValue.undefined =
      some (RequestData.doctorsLetter "" "") ∧
    extractSingleRequestData "other_admin" JSValue.undefined =
      some (RequestData.otherAdmin "") ∧
    parseStringValue JSValue.null = none ∧
    parseStringValue JSValue.undefined = none ∧
    parseBooleanValue JSValue.null = false ∧
    parseArrayValue (JSValue.str "null") = none ∧
    parseArrayValue (JSValue.arr []) = some [] := by
  have hs : parseStringValue JSValue.undefined = none := by simp [parseStringValue]
  have hb : parseBooleanValue JSValue.undefined = false := by simp [parseBooleanValue]
  refine ⟨?_, ?_, ?_, ?_, ?_, ?_, ?_, ?_, ?_, ?_, ?_, hs, ?_, ?_, ?_⟩
  · intro t ht c
    obtain ⟨rd, hrd, _⟩ := extractSingle_valid t ht c
    simp [hrd]
  · simp +decide [extractPatientData, optChain, nullish, propOrUndef, truthy,
      parsePreferredContact, formatPostcode, detectEmergencyFromTranscript, hs, hb,
      lookupField]
  all_goals simp +decide [extractSingleRequestData, optChain, nullish, propOrUndef,
    parseMedicationsString, parseStringValue, parseBooleanValue, parseArrayValue, hs, hb]

/-- Witness for C5: the known type `fit_note` extracts a defined record even
from a `null` collected bag. -/
theorem C5_extraction_total_defaults_witness :
    (extractSingleRequestData "fit_note" JSValue.null).isSome = true :=
  C5_extraction_total_defaults.1 "fit_note" (by decide) JSValue.null

/-- Counterexample to claim C9 as stated: the strength regex makes the unit
OPTIONAL, so the entry "Aspirin 100" — which has no trailing dosage of the
claimed `<number> <unit>` form — is nevertheless split into name "Aspirin"
and strength "100" instead of being returned whole with an empty strength. -/
theorem C9_counterexample :
    parseMedicationsString (JSValue.str "Aspirin 100") =
      [⟨"Aspirin", "100"⟩] ∧
    ¬(parseMedicationsString (JSValue.str "Aspirin 100") =
      [⟨"Aspirin 100", ""⟩]) := by
  constructor
  · simp only [parseMedicationsString, parseStringValue]
    decide
  · simp only [parseMedicationsString, parseStringValue]
    decide

/-- Claim C9 as amended: the medications parser splits on commas, trims and
drops empty entries, and splits a trailing whitespace-separated dosage
`<number>(.<number>)?` optionally followed (with or without whitespace) by a
unit in {mg, ml, mcg, g, IU, %, unit, units} (case-insensitive) from the
leading name, uppercasing the strength; entries without such a trailing
dosage (including dosages not preceded by whitespace) become
`{name: entry, strength: ""}`, and a null-coercing input yields `[]`.
The claimed Metformin/Lisinopril scenario holds as stated. -/
theorem C9_parseMedicationsString_amended :
    parseMedicationsString (JSValue.str "Metformin 500mg, Lisinopril 10mg") =
      [⟨"Metformin", "500MG"⟩, ⟨"Lisinopril", "10MG"⟩] ∧
    parseMedicationsString (JSValue.str "Adderall XR 25 MG, Codine 50 MG") =
      [⟨"Adderall XR", "25 MG"⟩, ⟨"Codine", "50 MG"⟩] ∧
    parseMedicationsString (JSValue.str "Aspirin 100") = [⟨"Aspirin", "100"⟩] ∧
    parseMedicationsString (JSValue.str "Insulin 10 units, Vitamin D 5 unit") =
      [⟨"Insulin", "10 UNITS"⟩, ⟨"Vitamin D", "5 UNIT"⟩] ∧
    parseMedicationsString (JSValue.str "Paracetamol") = [⟨"Paracetamol", ""⟩] ∧
    parseMedicationsString (JSValue.str "Metformin500mg") =
      [⟨"Metformin500mg", ""⟩] ∧
    (∀ v : JSValue, parseStringValue v = none → parseMedicationsString v = []) := by
  refine ⟨?_, ?_, ?_, ?_, ?_, ?_, ?_⟩
  · simp only [parseMedicationsString, parseStringValue]
    decide
  · simp only [parseMedicationsString, parseStringValue]
    decide
  · simp only [parseMedicationsString, parseStringValue]
    decide
  · simp only [parseMedicationsString, parseStringValue]
    decide
  · simp only [parseMedicationsString, parseStringValue]
    decide
  · simp only [parseMedicationsString, parseStringValue]
    decide
  · intro v h
    simp [parseMedicationsString, h]

/-- Witness for the amended C9: a null medications field parses to the empty
list. -/
theorem C9_parseMedicationsString_amended_witness :
    parseMedicationsString JSValue.null = [] :=
  C9_parseMedicationsString_amended.2.2.2.2.2.2 JSValue.null (by simp [parseStringValue])

/-- Validation behaviour of the payload body applied to a parsed JSON value:
success is exactly a string `type` equal to the accepted kind plus truthy
`conversation_id` and `agent_id`; a truthy non-accepted `type` produces the
error naming the received kind. -/
theorem payloadJ_spec (v : JSValue) :
    ((parseWebhookPayloadJ v).success = true ↔
      propOrUndef v "type" = JSValue.str "post_call_transcription" ∧
      truthy (optChain (propOrUndef v "data") "conversation_id") = true ∧
      truthy (optChain (propOrUndef v "data") "agent_id") = true) ∧
    ((parseWebhookPayloadJ v).success = true → (parseWebhookPayloadJ v).payload = some v) ∧
    (nullish v = false → truthy (propOrUndef v "type") = true →
      propOrUndef v "type" ≠ JSValue.str "post_call_transcription" →
      (parseWebhookPayloadJ v).success = false ∧
      (parseWebhookPayloadJ v).error =
        some ("Unsupported webhook type: " ++ jsToString (propOrUndef v "type"))) := by
  unfold parseWebhookPayloadJ
  by_cases hn : nullish v = true
  · have hpt : propOrUndef v "type" = JSValue.undefined := by
      cases v <;> simp_all [nullish, propOrUndef]
    rw [if_pos hn]
    refine ⟨?_, ?_, ?_⟩
    · simp [hpt]
    · simp
    · simp [hn]
  · rw [if_neg hn]
    by_cases ht : truthy (propOrUndef v "type") = true
    · rw [if_neg (by simp [ht])]
      rcases hty : propOrUndef v "type" with _ | _ | b | n | s | xs | fs
      all_goals rw [hty] at ht
      rotate_left 4
      ·
        by_cases hps : s = "post_call_transcription"
        · subst hps
          simp only []
          by_cases hc : truthy (optChain (propOrUndef v "data") "conversation_id") = true
          · rw [if_neg (by simp [hc])]
            by_cases ha : truthy (optChain (propOrUndef v "data") "agent_id") = true
            · rw [if_neg (by simp [ha])]
              refine ⟨?_, ?_, ?_⟩
              · simp [hc, ha]
              · simp
              · intro _ _ hne
                exact absurd rfl hne
            · rw [if_pos (by simp_all)]
              refine ⟨?_, ?_, ?_⟩
              · simp [ha]
              · simp
              · intro _ _ hne
                exact absurd rfl hne
          · rw [if_pos (by simp_all)]
            refine ⟨?_, ?_, ?_⟩
            · simp [hc]
            · simp
            · intro _ _ hne
              exact absurd rfl hne
        · refine ⟨?_, ?_, ?_⟩ <;> split <;> simp_all
      all_goals refine ⟨?_, ?_, ?_⟩
      all_goals simp
    · rw [if_pos (by simp [ht])]
      refine ⟨?_, ?_, ?_⟩
      · constructor
        · intro h
          simp at h
        · rintro ⟨h1, _⟩
          rw [h1] at ht
          simp [truthy] at ht
      · simp
      · intro _ h2 _
        exact absurd h2 ht

/-- Claim C4: `parseWebhookPayload` fails closed on invalid JSON, fails on
any `type` other than post_call_transcription with an error naming the
received kind, fails on missing (falsy) `data.conversation_id` or
`data.agent_id`, and succeeds returning the parsed envelope exactly
otherwise — an envelope without those identifiers never yields success. -/
theorem C4_parseWebhookPayload_validation (jsonParse : String → Option JSValue)
    (body : String) :
    (jsonParse body = none → (parseWebhookPayload jsonParse body).success = false) ∧
    (∀ v, jsonParse body = some v → nullish v = false →
      truthy (propOrUndef v "type") = true →
      propOrUndef v "type" ≠ JSValue.str "post_call_transcription" →
      (parseWebhookPayload jsonParse body).success = false ∧
      (parseWebhookPayload jsonParse body).error =
        some ("Unsupported webhook type: " ++ jsToString (propOrUndef v "type"))) ∧
    ((parseWebhookPayload jsonParse body).success = true ↔
      ∃ v, jsonParse body = some v ∧
        propOrUndef v "type" = JSValue.str "post_call_transcription" ∧
        truthy (optChain (propOrUndef v "data") "conversation_id") = true ∧
        truthy (optChain (propOrUndef v "data") "agent_id") = true) ∧
    ((parseWebhookPayload jsonParse body).success = true →
      (parseWebhookPayload jsonParse body).payload = jsonParse body) := by
  simp only [parseWebhookPayload]
  cases h : jsonParse body with
  | none =>
    refine ⟨fun _ => rfl, ?_, ?_, ?_⟩
    · intro v hv
      exact absurd hv (by simp)
    · constructor
      · intro hcon
        simp at hcon
      · rintro ⟨v, hv, _⟩
        exact absurd hv (by simp)
    · intro hcon
      simp at hcon
  | some v =>
    obtain ⟨hiff, hpay, huns⟩ := payloadJ_spec v
    refine ⟨?_, ?_, ?_, ?_⟩
    · intro hcon
      exact absurd hcon (by simp)
    · intro w hw hnw htw hne
      have hwv : w = v := by
        injection hw with hw'
        exact hw'.symm
      subst hwv
      exact huns hnw htw hne
    · rw [hiff]
      constructor
      · intro hx
        exact ⟨v, rfl, hx.1, hx.2.1, hx.2.2⟩
      · rintro ⟨w, hw, h1, h2, h3⟩
        injection hw with hw'
        subst hw'
        exact ⟨h1, h2, h3⟩
    · intro hs
      exact hpay hs

/-- Witness for C4: a well-formed post-call envelope parses successfully. -/
theorem C4_parseWebhookPayload_validation_witness :
    (parseWebhookPayload (fun _ => some (JSValue.obj
      [("type", JSValue.str "post_call_transcription"),
       ("data", JSValue.obj [("conversation_id", JSValue.str "c"),
                             ("agent_id", JSValue.str "a")])])) "x").success = true :=
  (C4_parseWebhookPayload_validation _ "x").2.2.1.mpr
    ⟨_, rfl, rfl, rfl, rfl⟩

theorem hexVal_hexChar (d : Nat) (hd : d < 16) : hexDigitVal (hexDigitChar d) = some d := by
  interval_cases d <;> decide

/-- Lenient hex decoding is a left inverse of the digest's hex encoding. -/
theorem hexDecode_hexEncode (bytes : List Nat) (h : ∀ b ∈ bytes, b < 256) :
    hexDecode (hexEncode bytes) = bytes := by
  induction bytes with
  | nil => rfl
  | cons b bs ih =>
    have hb : b < 256 := h b (List.mem_cons_self b bs)
    have hdiv : b / 16 < 16 := by omega
    show hexDecodeL (hexDigitChar (b / 16 % 16) :: hexDigitChar (b % 16) ::
      (hexEncode bs).data) = b :: bs
    simp only [hexDecodeL, hexVal_hexChar _ (Nat.mod_lt _ (by omega)),
      hexVal_hexChar _ (Nat.mod_lt _ (by omega))]
    have hmod : b / 16 % 16 = b / 16 := Nat.mod_eq_of_lt hdiv
    rw [hmod]
    have : 16 * (b / 16) + b % 16 = b := Nat.div_add_mod b 16
    rw [this]
    have ihh := ih (fun x hx => h x (List.mem_cons_of_mem b hx))
    simp only [hexDecode] at ihh
    rw [ihh]

/-- Counterexample to claim C3 as stated: for the concrete header
`t=0,v0=AB` (with `now = 0`, body `"b"`, secret `"s"` and a digest of
`[0xab]`) the verifier accepts, yet the provided hash `"AB"` is NOT equal to
the hex-encoded HMAC (`"ab"`): Node's hex decoding is case-insensitive (and
stops at the first invalid pair), so acceptance is not string equality with
the hex digest. -/
theorem C3_counterexample :
    (validateWebhookSignature (fun _ _ => [171]) 0 (some "t=0,v0=AB") "b" "s").valid = true ∧
    ¬("AB" = hexEncode ((fun _ _ => ([171] : List Nat)) "s" ("0" ++ "." ++ "b"))) := by
  constructor
  · rfl
  · decide

/-- Claim C3 as amended: for every header, body and secret, the verifier
returns valid exactly when the header is non-empty, contains a first `t=`
and a first `v0=` component, the freshness check passes under JS `parseInt`
semantics (a numeric timestamp within 1800 seconds of now, or a
non-numeric timestamp, whose NaN comparison makes the expiry test false),
and the lenient hex decoding of the provided hash (case-insensitive,
stopping at the first invalid pair) equals the HMAC-SHA256 digest bytes of
`"{t}.{body}"` under the secret; a missing component yields the
malformed-header reason, a stale numeric timestamp the expired reason, and
a decode length or content mismatch the signature-mismatch reason. -/
theorem C3_validateWebhookSignature_amended (hmacSha256 : String → String → List Nat)
    (hbytes : ∀ s p, ∀ b ∈ hmacSha256 s p, b < 256)
    (nowSeconds : Int) (body secret : String) :
    validateWebhookSignature hmacSha256 nowSeconds none body secret =
      ⟨false, some "Missing signature header"⟩ ∧
    validateWebhookSignature hmacSha256 nowSeconds (some "") body secret =
      ⟨false, some "Missing signature header"⟩ ∧
    (∀ sg, sg ≠ "" →
      ((jsSplitChar ',' sg).find? (fun p => jsStartsWith p "t=") = none ∨
       (jsSplitChar ',' sg).find? (fun p => jsStartsWith p "v0=") = none) →
      validateWebhookSignature hmacSha256 nowSeconds (some sg) body secret =
        ⟨false, some "Invalid signature format"⟩) ∧
    (∀ sg tp hp, sg ≠ "" →
      (jsSplitChar ',' sg).find? (fun p => jsStartsWith p "t=") = some tp →
      (jsSplitChar ',' sg).find? (fun p => jsStartsWith p "v0=") = some hp →
      validateWebhookSignature hmacSha256 nowSeconds (some sg) body secret =
        (if (match jsParseInt (jsDropChars 2 tp) with
             | some ts => decide (1800 < (nowSeconds - ts).natAbs)
             | none => false) = true
         then ⟨false, some "Signature timestamp expired"⟩
         else if hexDecode (jsDropChars 3 hp) =
             hmacSha256 secret (jsDropChars 2 tp ++ "." ++ body)
         then ⟨true, none⟩
         else ⟨false, some "Invalid signature"⟩)) := by
  refine ⟨rfl, rfl, ?_, ?_⟩
  · intro sg hsg hor
    simp only [validateWebhookSignature]
    rw [if_neg hsg]
    rcases hfa : (jsSplitChar ',' sg).find? (fun p => jsStartsWith p "t=") with _ | tp
    · simp [hfa]
    · rcases hfb : (jsSplitChar ',' sg).find? (fun p => jsStartsWith p "v0=") with _ | hp
      · simp [hfa, hfb]
      · rw [hfa, hfb] at hor
        rcases hor with h | h <;> simp at h
  · intro sg tp hp hsg hf1 hf2
    simp only [validateWebhookSignature]
    rw [if_neg hsg, hf1, hf2]
    simp only []
    by_cases hexp : (match jsParseInt (jsDropChars 2 tp) with
        | some ts => decide (1800 < (nowSeconds - ts).natAbs)
        | none => false) = true
    · rw [if_pos hexp, if_pos hexp]
    · rw [if_neg hexp, if_neg hexp]
      have hrt : hexDecode (hexEncode (hmacSha256 secret (jsDropChars 2 tp ++ "." ++ body))) =
          hmacSha256 secret (jsDropChars 2 tp ++ "." ++ body) :=
        hexDecode_hexEncode _ (hbytes secret _)
      rw [hrt]
      by_cases heq : hexDecode (jsDropChars 3 hp) =
          hmacSha256 secret (jsDropChars 2 tp ++ "." ++ body)
      · rw [if_pos heq, heq]
        rw [if_neg (by simp), if_neg (by simp)]
      · rw [if_neg heq]
        by_cases hlen : (hexDecode (jsDropChars 3 hp)).length =
            (hmacSha256 secret (jsDropChars 2 tp ++ "." ++ body)).length
        · rw [if_neg (by simp [hlen])]
          rw [if_pos (by simp [heq])]
        · rw [if_pos (by simp [hlen])]

/-- Witness for the amended C3: a fresh, correctly signed header verifies. -/
theorem C3_validateWebhookSignature_amended_witness :
    validateWebhookSignature (fun _ _ => [171]) 0 (some "t=0,v0=ab") "b" "s" =
      ⟨true, none⟩ := by
  rw [(C3_validateWebhookSignature_amended (fun _ _ => [171])
    (fun _ _ => show ∀ b ∈ ([171] : List Nat), b < 256 by decide) 0 "b" "s").2.2.2
    "t=0,v0=ab" "t=0" "v0=ab" (by decide) (by rfl) (by rfl)]
  rfl
